import Mathlib

/-!
Verification of the Socket.io-Boilerplate repository.

Shallow embedding of the TypeScript sources:
  - `src/modules/room/RoomFactory.ts` (class `RoomFactory`),
  - `src/modules/room/Room.ts` (class `Room`, socket.io room semantics),
  - `src/core/event/EventEmitter.ts` (both `EventEmitter` variants),
  - `src/workers/base/WorkerBase.ts` (classes `WorkerBase`, `WorkerManager`),
  - `src/workers/WorkerThread.ts` (worker thread module body),
  - `src/core/strategy/strategies/ChatStrategy.ts` (class `ChatStrategy`).

JS `Map<string, V>` is modelled as an association list with insertion order,
object identity (`===` on objects / functions) as a natural-number tag, and a
settled JS promise as `Except`/`Option` values.
-/

/-! ## JS Map model (string keys, Nat values standing for object identities) -/

/-- JS `Map.prototype.has`: true when some binding has the given key. -/
def mapHas : List (String × Nat) → String → Bool
  | [], _ => false
  | p :: rest, k => p.1 == k || mapHas rest k

/-- JS `Map.prototype.get`: the value of the first binding with the key. -/
def mapGet : List (String × Nat) → String → Option Nat
  | [], _ => none
  | p :: rest, k => if p.1 == k then some p.2 else mapGet rest k

/-- JS `Map.prototype.set`: replace the existing binding in place, else append. -/
def mapSet : List (String × Nat) → String → Nat → List (String × Nat)
  | [], k, v => [(k, v)]
  | p :: rest, k, v => if p.1 == k then (k, v) :: rest else p :: mapSet rest k v

theorem mapGet_isSome_of_mapHas (l : List (String × Nat)) (k : String)
    (h : mapHas l k = true) : (mapGet l k).isSome = true := by
  induction l with
  | nil => simp [mapHas] at h
  | cons p rest ih =>
    by_cases hk : p.1 == k
    · simp [mapGet, hk]
    · simp [mapHas, hk] at h
      simp [mapGet, hk, ih h]

theorem mapGet_eq_none_of_not_mapHas (l : List (String × Nat)) (k : String)
    (h : mapHas l k = false) : mapGet l k = none := by
  induction l with
  | nil => rfl
  | cons p rest ih =>
    simp [mapHas] at h
    simp [mapGet, h.1, ih h.2]

theorem mapGet_mapSet_self (l : List (String × Nat)) (k : String) (v : Nat) :
    mapGet (mapSet l k v) k = some v := by
  induction l with
  | nil => simp [mapSet, mapGet]
  | cons p rest ih =>
    by_cases hk : p.1 == k
    · simp [mapSet, hk, mapGet]
    · simp [mapSet, hk, mapGet, ih]

theorem mapGet_mapSet_ne (l : List (String × Nat)) (k k2 : String) (v : Nat)
    (h : k2 ≠ k) : mapGet (mapSet l k v) k2 = mapGet l k2 := by
  induction l with
  | nil =>
    have : (k == k2) = false := by simp [beq_iff_eq]; exact fun he => h he.symm
    simp [mapSet, mapGet, this]
  | cons p rest ih =>
    by_cases hk : p.1 == k
    · have hpk : p.1 = k := by simpa [beq_iff_eq] using hk
      have : (k == k2) = false := by simp [beq_iff_eq]; exact fun he => h he.symm
      have hp2 : (p.1 == k2) = false := by
        simp [beq_iff_eq, hpk]; exact fun he => h he.symm
      simp [mapSet, hk, mapGet, this, hp2]
    · simp [mapSet, hk, mapGet, ih]

theorem mapHas_mapSet_self (l : List (String × Nat)) (k : String) (v : Nat) :
    mapHas (mapSet l k v) k = true := by
  induction l with
  | nil => simp [mapSet, mapHas]
  | cons p rest ih =>
    by_cases hk : p.1 == k
    · simp [mapSet, hk, mapHas]
    · simp [mapSet, hk, mapHas, ih]

/-! ## RoomFactory (src/modules/room/RoomFactory.ts)

`private static rooms: Map<string, Room>` together with the `new Room(roomId)`
allocations is modelled as a registry state: the map from room id to the
identity tag of the stored `Room` object, plus a counter supplying the fresh
identity used by the next `new Room(...)`. -/

structure RoomRegistry where
  rooms : List (String × Nat)
  nextTag : Nat
deriving DecidableEq, Repr

/-- Embeds `RoomFactory.getRoom`:
`if (!this.rooms.has(roomId)) { this.rooms.set(roomId, new Room(roomId)); }
 return this.rooms.get(roomId)!;`
returning the identity of the returned `Room` (as `Option`, for the `!`
non-null assertion) together with the updated registry. -/
def RoomFactory.getRoom (st : RoomRegistry) (roomId : String) :
    Option Nat × RoomRegistry :=
  let st1 :=
    if mapHas st.rooms roomId then st
    else { rooms := mapSet st.rooms roomId st.nextTag, nextTag := st.nextTag + 1 }
  (mapGet st1.rooms roomId, st1)

/-! ## Room (src/modules/room/Room.ts) with socket.io room semantics

`Room.join(socket)` is `socket.join(this.id)`: the socket is added to the
server-side membership set of room `id` (a JS `Set`, so re-joining is a no-op).
`Room.broadcast(socket, event, message)` is `this.io.to(this.id).emit(event,
message)`: one send per socket currently in the room; the `socket` parameter
is not used by the method body. Sockets are identity tags (Nat). -/

/-- Membership update performed by `Room.join` (socket.io `Set` semantics). -/
def Room.join (members : List Nat) (socket : Nat) : List Nat :=
  if socket ∈ members then members else members ++ [socket]

/-- One message delivery performed by `io.to(id).emit(event, message)`. -/
structure Send where
  recipient : Nat
  event : String
  payload : String
deriving DecidableEq, Repr

/-- Embeds `Room.broadcast`: `this.io.to(this.id).emit(event, message)`
delivers to every current member of the room; the `socket` (origin) argument
does not occur in the body. -/
def Room.broadcast (members : List Nat) (socket : Nat) (event : String)
    (payload : String) : List Send :=
  members.map (fun m => { recipient := m, event := event, payload := payload })

/-- Names of the public methods declared by `class Room` in
src/modules/room/Room.ts (besides the constructor): exactly `join` and
`broadcast`. -/
def roomMethodNames : List String := ["join", "broadcast"]

theorem broadcast_filter_length_zero (members : List Nat) (o m : Nat)
    (e p : String) (h : m ∉ members) :
    ((Room.broadcast members o e p).filter
      (fun snd => snd.recipient == m)).length = 0 := by
  induction members with
  | nil => rfl
  | cons a rest ih =>
    have ha : (a == m) = false := by
      simp [beq_iff_eq]; exact fun he => h (he ▸ List.mem_cons_self a rest)
    have hrest : m ∉ rest := fun hm => h (List.mem_cons_of_mem a hm)
    simp [Room.broadcast, List.filter, ha] at *
    exact ih hrest

theorem broadcast_filter_length_one (members : List Nat) (o m : Nat)
    (e p : String) (hnd : members.Nodup) (hm : m ∈ members) :
    ((Room.broadcast members o e p).filter
      (fun snd => snd.recipient == m)).length = 1 := by
  induction members with
  | nil => simp at hm
  | cons a rest ih =>
    rcases List.nodup_cons.mp hnd with ⟨hnotin, hndrest⟩
    by_cases ham : a = m
    · have hrest : m ∉ rest := ham ▸ hnotin
      have h0 := broadcast_filter_length_zero rest o m e p hrest
      simp [Room.broadcast, List.filter, ham] at *
      exact h0
    · have ha : (a == m) = false := by simp [beq_iff_eq]; exact ham
      have hmrest : m ∈ rest := by
        rcases List.mem_cons.mp hm with h1 | h2
        · exact absurd h1.symm ham
        · exact h2
      simp [Room.broadcast, List.filter, ha] at *
      exact ih hndrest hmrest

/-- Claim C1: any two `RoomFactory.getRoom(g)` calls on the same registry
return the identical Room instance; the first call creates and inserts it, a
later call returns the stored instance unchanged, and no call ever replaces
or removes an existing entry. -/
theorem roomFactory_getRoom_idempotent (st : RoomRegistry) (g g2 : String)
    (r : Nat) (hstored : mapGet st.rooms g2 = some r) :
    ((RoomFactory.getRoom st g).1).isSome = true ∧
    RoomFactory.getRoom (RoomFactory.getRoom st g).2 g = RoomFactory.getRoom st g ∧
    mapGet (RoomFactory.getRoom st g).2.rooms g2 = some r := by
  by_cases h : mapHas st.rooms g = true
  · refine ⟨?_, ?_, ?_⟩
    · simpa [RoomFactory.getRoom, h] using mapGet_isSome_of_mapHas st.rooms g h
    · simp [RoomFactory.getRoom, h]
    · simpa [RoomFactory.getRoom, h] using hstored
  · have hfalse : mapHas st.rooms g = false := by
      cases hmh : mapHas st.rooms g
      · rfl
      · exact absurd hmh h
    have hne : g2 ≠ g := by
      intro he
      have := mapGet_eq_none_of_not_mapHas st.rooms g hfalse
      rw [he] at hstored
      simp [this] at hstored
    refine ⟨?_, ?_, ?_⟩
    · simp [RoomFactory.getRoom, hfalse, mapGet_mapSet_self]
    · simp [RoomFactory.getRoom, hfalse, mapHas_mapSet_self]
    · simpa [RoomFactory.getRoom, hfalse, mapGet_mapSet_ne _ _ _ _ hne]
        using hstored

/-- Witness for C1 on a concrete registry: `getRoom "room1"` creates the room,
a second call returns the identical instance and state, and the pre-existing
binding for `"lobby"` survives. -/
theorem roomFactory_getRoom_idempotent_witness :
    ((RoomFactory.getRoom { rooms := [("lobby", 0)], nextTag := 1 } "room1").1).isSome = true ∧
    RoomFactory.getRoom (RoomFactory.getRoom { rooms := [("lobby", 0)], nextTag := 1 } "room1").2 "room1" =
      RoomFactory.getRoom { rooms := [("lobby", 0)], nextTag := 1 } "room1" ∧
    mapGet (RoomFactory.getRoom { rooms := [("lobby", 0)], nextTag := 1 } "room1").2.rooms "lobby" = some 0 :=
  roomFactory_getRoom_idempotent { rooms := [("lobby", 0)], nextTag := 1 } "room1" "lobby" 0 rfl

/-- Claim C2: broadcasting to a room with N distinct joined members produces
exactly N sends, exactly one per member, and the origin (itself a member) is
among the recipients. -/
theorem room_broadcast_one_send_per_member (members : List Nat) (origin : Nat)
    (event payload : String) (hnd : members.Nodup) (ho : origin ∈ members) :
    (Room.broadcast members origin event payload).length = members.length ∧
    (∀ m ∈ members,
      ((Room.broadcast members origin event payload).filter
        (fun snd => snd.recipient == m)).length = 1) ∧
    Send.mk origin event payload ∈ Room.broadcast members origin event payload := by
  refine ⟨?_, ?_, ?_⟩
  · simp [Room.broadcast]
  · intro m hm
    exact broadcast_filter_length_one members origin m event payload hnd hm
  · exact List.mem_map.mpr ⟨origin, ho, rfl⟩

/-- Witness for C2: a three-member room receives exactly three sends, one per
member, and the origin socket 1 is echoed to. -/
theorem room_broadcast_one_send_per_member_witness :
    (Room.broadcast [1, 2, 3] 1 "chat:message" "hi").length = 3 ∧
    ((Room.broadcast [1, 2, 3] 1 "chat:message" "hi").filter
      (fun snd => snd.recipient == 2)).length = 1 ∧
    Send.mk 1 "chat:message" "hi" ∈ Room.broadcast [1, 2, 3] 1 "chat:message" "hi" := by
  have h := room_broadcast_one_send_per_member [1, 2, 3] 1 "chat:message" "hi"
    (by decide) (by decide)
  exact ⟨h.1, h.2.1 2 (by decide), h.2.2⟩

/-- Claim C6 (as stated) is false: `class Room` declares no `leave` method —
its only methods are `join` and `broadcast`. -/
theorem room_type_has_no_leave : roomMethodNames.contains "leave" = false := by
  decide

/-- Claim C6 (amended): Room provides no leave operation (only `join` and
`broadcast`); under the only membership operation `join` a member stays a
member, and a current member receives every broadcast to the room. -/
theorem room_no_leave_membership_persists (members : List Nat)
    (s origin t : Nat) (event payload : String) (hmem : s ∈ members) :
    roomMethodNames = ["join", "broadcast"] ∧
    s ∈ Room.join members t ∧
    Send.mk s event payload ∈ Room.broadcast members origin event payload := by
  refine ⟨rfl, ?_, List.mem_map.mpr ⟨s, hmem, rfl⟩⟩
  by_cases h : t ∈ members
  · simpa [Room.join, h] using hmem
  · simp [Room.join, h]
    exact Or.inl hmem

/-- Witness for the amended C6 at a concrete room: member 5 survives a join of
7 and receives the broadcast. -/
theorem room_no_leave_membership_persists_witness :
    5 ∈ Room.join [5] 7 ∧
    Send.mk 5 "chat:message" "hi" ∈ Room.broadcast [5] 3 "chat:message" "hi" :=
  ⟨(room_no_leave_membership_persists [5] 5 3 7 "chat:message" "hi" (by decide)).2.1,
   (room_no_leave_membership_persists [5] 5 3 7 "chat:message" "hi" (by decide)).2.2⟩

/-- Claim C10: `Room.broadcast` does not use its origin-socket argument, so
any two origins (member or not) produce identical deliveries to identical
recipients. -/
theorem room_broadcast_origin_independent (members : List Nat) (o1 o2 : Nat)
    (event payload : String) :
    Room.broadcast members o1 event payload = Room.broadcast members o2 event payload :=
  rfl

/-! ## EventEmitter, static-map variant (src/core/event/EventEmitter.ts)

`public static emit(event, socket, ...args)` runs
`handlers.forEach((handler) => handler.handle(socket, ...args))` with no
try/catch: a throwing handler aborts the loop and the exception propagates to
the caller of `emit`. Handlers are modelled by their identity tag plus whether
`handle` returns or throws. -/

inductive HandlerSpec : Type
  | ok (fid : Nat)
  | throws (fid : Nat) (err : String)
deriving DecidableEq, Repr

/-- Identity tag of a handler. -/
def HandlerSpec.fid : HandlerSpec → Nat
  | .ok i => i
  | .throws i _ => i

/-- Outcome of one emit call: which handlers ran, what was logged, and the
exception (if any) that escaped to the caller. -/
structure EmitOutcome where
  invoked : List Nat
  logs : List String
  thrown : Option String
deriving DecidableEq, Repr

/-- Embeds the static `EventEmitter.emit`: handlers run in order until one
throws; the exception escapes and later handlers never run. -/
def EventEmitter.staticEmit : List HandlerSpec → EmitOutcome
  | [] => { invoked := [], logs := [], thrown := none }
  | HandlerSpec.ok i :: rest =>
    let o := EventEmitter.staticEmit rest
    { invoked := i :: o.invoked, logs := o.logs, thrown := o.thrown }
  | HandlerSpec.throws i e :: _rest =>
    { invoked := [i], logs := [], thrown := some e }

/-- Embeds emission through the singleton `EventEmitter`: each listener was
registered by `on` as a `wrappedHandler` whose body is
`try { handler(...) } catch (err) { Logger.error(...) }`, so every handler
runs, failures are logged as
`Error handling event <event>: <message>`, and nothing escapes. -/
def EventEmitter.instanceEmit (event : String) : List HandlerSpec → EmitOutcome
  | [] => { invoked := [], logs := [], thrown := none }
  | HandlerSpec.ok i :: rest =>
    let o := EventEmitter.instanceEmit event rest
    { invoked := i :: o.invoked, logs := o.logs, thrown := o.thrown }
  | HandlerSpec.throws i e :: rest =>
    let o := EventEmitter.instanceEmit event rest
    { invoked := i :: o.invoked,
      logs := ("Error handling event " ++ event ++ ": " ++ e) :: o.logs,
      thrown := o.thrown }

theorem instanceEmit_runs_all (event : String) (hs : List HandlerSpec) :
    (EventEmitter.instanceEmit event hs).invoked = hs.map HandlerSpec.fid ∧
    (EventEmitter.instanceEmit event hs).thrown = none := by
  induction hs with
  | nil => exact ⟨rfl, rfl⟩
  | cons h rest ih =>
    cases h with
    | ok i => simpa [EventEmitter.instanceEmit, HandlerSpec.fid] using ih
    | throws i e => simpa [EventEmitter.instanceEmit, HandlerSpec.fid] using ih

/-- Claim C3 (as stated) is false for the static-map `EventEmitter`: with
handlers [h1 = ok 1, h2 = throws "boom", h3 = ok 3], h3 is not invoked and the
exception propagates to the caller of `emit`. -/
theorem staticEmit_breaks_isolation :
    ¬ (3 ∈ (EventEmitter.staticEmit
            [HandlerSpec.ok 1, HandlerSpec.throws 2 "boom", HandlerSpec.ok 3]).invoked ∧
       (EventEmitter.staticEmit
            [HandlerSpec.ok 1, HandlerSpec.throws 2 "boom", HandlerSpec.ok 3]).thrown = none) := by
  decide

/-- Claim C3 (amended): failure isolation holds for the singleton
`EventEmitter` (wrapped handlers: all of h1, h2, h3 run, the failure is
logged, nothing propagates — and in general every handler always runs with no
escape), while the static-map `EventEmitter.emit` stops at the throwing
handler and propagates its exception. -/
theorem emitter_isolation_singleton_only (i1 i2 i3 : Nat) (e event : String) :
    (EventEmitter.instanceEmit event
        [HandlerSpec.ok i1, HandlerSpec.throws i2 e, HandlerSpec.ok i3]).invoked = [i1, i2, i3] ∧
    (EventEmitter.instanceEmit event
        [HandlerSpec.ok i1, HandlerSpec.throws i2 e, HandlerSpec.ok i3]).logs =
      ["Error handling event " ++ event ++ ": " ++ e] ∧
    (EventEmitter.instanceEmit event
        [HandlerSpec.ok i1, HandlerSpec.throws i2 e, HandlerSpec.ok i3]).thrown = none ∧
    (∀ hs : List HandlerSpec,
      (EventEmitter.instanceEmit event hs).invoked = hs.map HandlerSpec.fid ∧
      (EventEmitter.instanceEmit event hs).thrown = none) ∧
    (EventEmitter.staticEmit
        [HandlerSpec.ok i1, HandlerSpec.throws i2 e, HandlerSpec.ok i3]).invoked = [i1, i2] ∧
    (EventEmitter.staticEmit
        [HandlerSpec.ok i1, HandlerSpec.throws i2 e, HandlerSpec.ok i3]).thrown = some e := by
  refine ⟨rfl, rfl, rfl, instanceEmit_runs_all event, rfl, rfl⟩

/-! ## Node EventEmitter state for on/off (singleton EventEmitter variant)

`EventEmitter.on` builds a fresh closure `wrappedHandler` and registers THAT
with the underlying Node emitter; `EventEmitter.off` passes the ORIGINAL
handler to `emitter.off`, which removes a listener `l` only when
`l === handler` (or `l.listener === handler`, set only by `once` wrappers).
Function identities are Nat tags; a wrapper records the original handler it
invokes. -/

structure NodeListener where
  fid : Nat
  target : Nat
deriving DecidableEq, Repr

structure EmitterState where
  listeners : List (String × NodeListener)
  nextFid : Nat
deriving DecidableEq, Repr

/-- Embeds the singleton `EventEmitter.on`: allocate the fresh
`wrappedHandler` closure (identity `nextFid`) around `handler` and register
it with `this.emitter.on(event, wrappedHandler)`. -/
def EventEmitter.on (st : EmitterState) (event : String) (handler : Nat) :
    EmitterState :=
  { listeners := st.listeners ++ [(event, { fid := st.nextFid, target := handler })],
    nextFid := st.nextFid + 1 }

/-- Node `removeListener` match scan: drop the first listener (scanning a
reversed list, i.e. the last-registered one) whose identity is the argument
function, for the given event. -/
def removeFirstMatch : List (String × NodeListener) → String → Nat →
    List (String × NodeListener)
  | [], _, _ => []
  | p :: rest, ev, h =>
    if p.1 == ev && p.2.fid == h then rest
    else p :: removeFirstMatch rest ev h

/-- Embeds the singleton `EventEmitter.off`:
`this.emitter.off(event, handler)` with the original handler — Node removes
the last-registered listener whose own identity equals `handler`. -/
def EventEmitter.off (st : EmitterState) (event : String) (handler : Nat) :
    EmitterState :=
  { st with listeners := (removeFirstMatch st.listeners.reverse event handler).reverse }

/-- Original handlers that `emit(event)` invokes: the targets of the
registered wrappers for that event, in order. -/
def EventEmitter.emitTargets (st : EmitterState) (event : String) : List Nat :=
  (st.listeners.filter (fun p => p.1 == event)).map (fun p => p.2.target)

/-- Claim C8 is a code bug: on a fresh emitter (original handler = function
identity 0, allocated before the emitter, `nextFid = 1`), registering the
handler for `chat:message`, unregistering it with the identical reference,
then emitting still invokes the handler — `off` compares the raw handler
against the stored wrapper and removes nothing. -/
theorem off_leaves_wrapped_handler_registered :
    EventEmitter.emitTargets
      (EventEmitter.off
        (EventEmitter.on { listeners := [], nextFid := 1 } "chat:message" 0)
        "chat:message" 0)
      "chat:message" = [0] := by
  decide

/-! ## WorkerBase.process (src/workers/base/WorkerBase.ts)

`process` returns `new Promise((resolve, reject) => ...)` wiring three worker
listeners: `message` (reject with `result.error` when that string is truthy,
else publish to Redis and `resolve()` — with no value), `error` (reject with
the error), and `exit` (reject with `Worker stopped with exit code <c>` when
`c !== 0`, nothing when `c === 0`). A JS promise settles at most once, on the
first settling callback; the settlement for a whole worker-event trace is the
first event that settles, `none` when no event ever does. -/

inductive WorkerEvent : Type
  | message (taskId : String) (result : String) (error : Option String)
  | errored (message : String)
  | exited (code : Nat)
deriving DecidableEq, Repr

inductive SettledState : Type
  | resolved
  | rejected (error : String)
deriving DecidableEq, Repr

/-- Settlement performed by the listener that receives one worker event;
`if (result.error)` is a JS truthiness test, so an empty error string takes
the success branch. -/
def WorkerBase.handleWorkerEvent : WorkerEvent → Option SettledState
  | WorkerEvent.message _ _ (some e) =>
    if e.length != 0 then some (SettledState.rejected e) else some SettledState.resolved
  | WorkerEvent.message _ _ none => some SettledState.resolved
  | WorkerEvent.errored e => some (SettledState.rejected e)
  | WorkerEvent.exited c =>
    if c != 0 then some (SettledState.rejected ("Worker stopped with exit code " ++ toString c))
    else none

/-- Settlement of the promise returned by `WorkerBase.process` over a trace of
worker events: the first settling event wins; `none` means the handle is
still pending when the trace ends. -/
def WorkerBase.processSettle (events : List WorkerEvent) : Option SettledState :=
  events.findSome? WorkerBase.handleWorkerEvent

/-- Claim C4 (as stated) is false: a worker that exits with code 0 without
posting any report leaves the handle pending forever — no timeout branch
exists, so no `TaskTimeout` rejection ever occurs and the handle never
settles on this trace. -/
theorem workerBase_pending_after_clean_exit :
    WorkerBase.processSettle [WorkerEvent.exited 0] = none := rfl

/-- Claim C4 (amended): the handle settles at most once, on the first
settling worker event — fulfilled (with no value; the result itself goes to
Redis) on a success report, rejected with the reported error string on a
truthy error report, rejected with the error on a worker `error` event,
rejected with `Worker stopped with exit code <c>` on non-zero exit; a clean
exit contributes nothing, and a trace with no settling event leaves the
handle pending — there is no timeout bound. -/
theorem workerBase_settle_first_event (events : List WorkerEvent)
    (t r e : String) (c : Nat) :
    WorkerBase.processSettle [] = none ∧
    WorkerBase.processSettle (WorkerEvent.message t r none :: events) =
      some SettledState.resolved ∧
    (e.length ≠ 0 →
      WorkerBase.processSettle (WorkerEvent.message t r (some e) :: events) =
        some (SettledState.rejected e)) ∧
    WorkerBase.processSettle (WorkerEvent.errored e :: events) =
      some (SettledState.rejected e) ∧
    WorkerBase.processSettle (WorkerEvent.exited 0 :: events) =
      WorkerBase.processSettle events ∧
    (c ≠ 0 →
      WorkerBase.processSettle (WorkerEvent.exited c :: events) =
        some (SettledState.rejected ("Worker stopped with exit code " ++ toString c))) := by
  refine ⟨rfl, rfl, ?_, rfl, rfl, ?_⟩
  · intro he
    have hlen : (e.length != 0) = true := by simpa [bne_iff_ne] using he
    simp [WorkerBase.processSettle, List.findSome?, WorkerBase.handleWorkerEvent, hlen]
  · intro hc
    have hcb : (c != 0) = true := by simpa [bne_iff_ne] using hc
    simp [WorkerBase.processSettle, List.findSome?, WorkerBase.handleWorkerEvent, hcb]

/-- Witness for the amended C4 at concrete traces: an error report rejects
with that error, and exit code 1 rejects with the exit-code message. -/
theorem workerBase_settle_first_event_witness :
    WorkerBase.processSettle [WorkerEvent.message "t" "r" (some "boom")] =
      some (SettledState.rejected "boom") ∧
    WorkerBase.processSettle [WorkerEvent.exited 1] =
      some (SettledState.rejected ("Worker stopped with exit code " ++ toString 1)) :=
  ⟨(workerBase_settle_first_event [] "t" "r" "boom" 1).2.2.1 (by decide),
   (workerBase_settle_first_event [] "t" "r" "boom" 1).2.2.2.2.2 (by decide)⟩

/-! ## WorkerManager.processMessage (src/workers/base/WorkerBase.ts)

`processMessage` is an `async` method: by JS semantics the call itself never
throws — any `throw` inside the body surfaces as a rejection of the returned
promise. The body looks up `strategyName` in the strategies map (populated
with `chat` and `analytics` by `registerStrategies`), throws
`Unknown strategy: <name>` when absent, and otherwise awaits `this.process`
(whose settled outcome is the `inner` parameter here), logging and
re-throwing its rejection. -/

inductive SyncOutcome (α : Type) : Type
  | promise (settled : Except String α)
  | thrown (error : String)

/-- JS semantics of calling an `async` function: the body's outcome is always
delivered as a (settled) promise, never as a synchronous exception. -/
def asyncCall {α : Type} (body : Except String α) : SyncOutcome α :=
  SyncOutcome.promise body

/-- Keys registered by `WorkerManager.registerStrategies`. -/
def WorkerManager.registeredStrategies : List String := ["chat", "analytics"]

/-- Body of `processMessage`: unknown-strategy check, then the awaited
`this.process` outcome, whose rejection is logged and re-thrown. -/
def WorkerManager.processMessageBody (inner : Except String Unit)
    (_taskId _message strategyName : String) : Except String Unit :=
  if WorkerManager.registeredStrategies.contains strategyName then
    match inner with
    | Except.ok u => Except.ok u
    | Except.error e => Except.error e
  else Except.error ("Unknown strategy: " ++ strategyName)

/-- Embeds a call to the `async` method `WorkerManager.processMessage`. -/
def WorkerManager.processMessage (inner : Except String Unit)
    (taskId message strategyName : String) : SyncOutcome Unit :=
  asyncCall (WorkerManager.processMessageBody inner taskId message strategyName)

/-- Claim C5: calling `processMessage` with an unregistered strategy kind
yields a rejected promise carrying the `Unknown strategy` failure, never a
synchronously thrown exception — one failure channel for submission-time and
execution-time failures alike. -/
theorem processMessage_unknown_strategy_rejects (inner : Except String Unit)
    (taskId message kind : String)
    (h : WorkerManager.registeredStrategies.contains kind = false) :
    WorkerManager.processMessage inner taskId message kind =
      SyncOutcome.promise (Except.error ("Unknown strategy: " ++ kind)) ∧
    ∀ e, WorkerManager.processMessage inner taskId message kind ≠ SyncOutcome.thrown e := by
  constructor
  · simp only [WorkerManager.processMessage, WorkerManager.processMessageBody, asyncCall, h,
      Bool.false_eq_true, if_false]
  · intro e hcontra
    simp [WorkerManager.processMessage, asyncCall] at hcontra

/-- Witness for C5: dispatching with kind `unknown-kind` returns a rejected
promise with the `Unknown strategy` error. -/
theorem processMessage_unknown_strategy_rejects_witness :
    WorkerManager.processMessage (Except.ok ()) "task-1" "m" "unknown-kind" =
      SyncOutcome.promise (Except.error ("Unknown strategy: " ++ "unknown-kind")) :=
  (processMessage_unknown_strategy_rejects (Except.ok ()) "task-1" "m" "unknown-kind"
    (by decide)).1

/-! ## WorkerThread module body (src/workers/WorkerThread.ts)

Under a live `parentPort`, the body reads `{taskId, message, strategy}` from
`workerData`, looks the strategy name up in its map (`chat`, `analytics`),
throws `Unknown strategy: <name>` when absent, runs `process`, and posts
exactly one message: `{taskId, result}` on success, `{taskId, error}` from
the catch block on any throw. Strategy processing that may itself throw is a
function into `Except`. -/

structure WorkerData where
  taskId : String
  message : String
  strategy : String
deriving DecidableEq, Repr

inductive WorkerResultMsg : Type
  | success (taskId : String) (result : String)
  | failure (taskId : String) (error : String)
deriving DecidableEq, Repr

/-- The `taskId` field of a posted result envelope. -/
def WorkerResultMsg.taskId : WorkerResultMsg → String
  | WorkerResultMsg.success t _ => t
  | WorkerResultMsg.failure t _ => t

/-- JS `Map.prototype.get` over the worker-side strategy table. -/
def strategyLookup (strategies : List (String × (String → Except String String)))
    (k : String) : Option (String → Except String String) :=
  (strategies.find? (fun p => p.1 == k)).map Prod.snd

/-- Embeds the `WorkerThread` module body: the list of messages posted to
`parentPort` for one submission. -/
def workerThreadRun (strategies : List (String × (String → Except String String)))
    (d : WorkerData) : List WorkerResultMsg :=
  match strategyLookup strategies d.strategy with
  | none => [WorkerResultMsg.failure d.taskId ("Unknown strategy: " ++ d.strategy)]
  | some proc =>
    match proc d.message with
    | Except.ok r => [WorkerResultMsg.success d.taskId r]
    | Except.error e => [WorkerResultMsg.failure d.taskId e]

/-- Claim C9: for every submission the worker posts exactly one result
message carrying the submission's taskId — a success envelope when the named
strategy exists and returns, an error envelope when it is unknown or throws. -/
theorem workerThread_posts_exactly_one
    (strategies : List (String × (String → Except String String)))
    (d : WorkerData) :
    (workerThreadRun strategies d).map WorkerResultMsg.taskId = [d.taskId] ∧
    (strategyLookup strategies d.strategy = none →
      workerThreadRun strategies d =
        [WorkerResultMsg.failure d.taskId ("Unknown strategy: " ++ d.strategy)]) ∧
    (∀ proc r, strategyLookup strategies d.strategy = some proc →
      proc d.message = Except.ok r →
      workerThreadRun strategies d = [WorkerResultMsg.success d.taskId r]) ∧
    (∀ proc e, strategyLookup strategies d.strategy = some proc →
      proc d.message = Except.error e →
      workerThreadRun strategies d = [WorkerResultMsg.failure d.taskId e]) := by
  refine ⟨?_, ?_, ?_, ?_⟩
  · cases hl : strategyLookup strategies d.strategy with
    | none => simp [workerThreadRun, hl, WorkerResultMsg.taskId]
    | some proc =>
      cases hp : proc d.message with
      | ok r => simp [workerThreadRun, hl, hp, WorkerResultMsg.taskId]
      | error e => simp [workerThreadRun, hl, hp, WorkerResultMsg.taskId]
  · intro hl; simp [workerThreadRun, hl]
  · intro proc r hl hp; simp [workerThreadRun, hl, hp]
  · intro proc e hl hp; simp [workerThreadRun, hl, hp]

/-- Witness for C9: the submission `{task-1, m, nope}` against a table that
registers only `chat` posts exactly the unknown-strategy error envelope. -/
theorem workerThread_posts_exactly_one_witness :
    workerThreadRun [("chat", fun m => Except.ok m)]
        { taskId := "task-1", message := "m", strategy := "nope" } =
      [WorkerResultMsg.failure "task-1" ("Unknown strategy: " ++ "nope")] :=
  (workerThread_posts_exactly_one [("chat", fun m => Except.ok m)]
    { taskId := "task-1", message := "m", strategy := "nope" }).2.1 rfl

/-! ## ChatStrategy.process (src/core/strategy/strategies/ChatStrategy.ts)

The body is `try { await this.workerManager.processMessage(taskId, message,
'chat'); const room = RoomFactory.getRoom(message.roomId);
room.broadcast(socket, 'chat:message', message); } catch (error) {
Logger.error(...) }`: on success it broadcasts the message to the room; on
any rejection it only logs `ChatStrategy error: <message>`. The observable
effects are modelled as a list; `emitToSocket` is the vocabulary for an error
event sent back to the originating socket (the body never produces one). -/

inductive ChatEffect : Type
  | logError (message : String)
  | emitToSocket (socket : Nat) (event : String) (payload : String)
  | roomBroadcast (roomId : String) (event : String) (payload : String)
deriving DecidableEq, Repr

/-- Whether an effect is an emission back to the originating socket. -/
def ChatEffect.isEmitToSocket : ChatEffect → Bool
  | ChatEffect.emitToSocket _ _ _ => true
  | _ => false

/-- Embeds `ChatStrategy.process`, parametrised by the settled outcome of the
awaited `workerManager.processMessage` call. -/
def ChatStrategy.process (workerOutcome : Except String Unit) (_socket : Nat)
    (roomId message : String) : List ChatEffect :=
  match workerOutcome with
  | Except.ok _ => [ChatEffect.roomBroadcast roomId "chat:message" message]
  | Except.error e => [ChatEffect.logError ("ChatStrategy error: " ++ e)]

/-- Claim C7 (as stated) is false: on an unknown-strategy failure from the
worker manager, `ChatStrategy.process` produces only a log entry — no error
event is emitted back to the originating socket. -/
theorem chatStrategy_failure_sends_nothing :
    ChatStrategy.process (Except.error "Unknown strategy: chat") 7 "room1" "hello" =
      [ChatEffect.logError "ChatStrategy error: Unknown strategy: chat"] ∧
    (ChatStrategy.process (Except.error "Unknown strategy: chat") 7 "room1" "hello").filter
      ChatEffect.isEmitToSocket = [] := by
  constructor <;> rfl

/-- Claim C7 (amended): on any processing failure `ChatStrategy.process` only
logs `ChatStrategy error: <message>` — it never emits an error event to the
originating socket (on any outcome), and on success it broadcasts the message
to the room. -/
theorem chatStrategy_failure_only_logs (e : String) (socket : Nat)
    (roomId message : String) (outcome : Except String Unit) :
    ChatStrategy.process (Except.error e) socket roomId message =
      [ChatEffect.logError ("ChatStrategy error: " ++ e)] ∧
    (ChatStrategy.process outcome socket roomId message).filter
      ChatEffect.isEmitToSocket = [] ∧
    ChatStrategy.process (Except.ok ()) socket roomId message =
      [ChatEffect.roomBroadcast roomId "chat:message" message] := by
  refine ⟨rfl, ?_, rfl⟩
  cases outcome with
  | ok u => rfl
  | error err => rfl
